import Mathlib

/-!
Shallow embedding of the ludo-server game engine (src/server.js, the full
variant containing `getNewPosition` / `calculateMovablePieces` / the
`movePiece` handler, i.e. the second document in the file).

Conventions used throughout:
* JS numbers holding board positions are embedded as `Int` (a piece in the
  Home pen has `position = -1`).
* The JS `%` operator truncates toward zero, which on `Int` is `Int.tmod`.
* `null`/`undefined` valued fields (`diceValue`, `currentTurnPlayerId`,
  `winner`) are embedded as `Option`.
* The unbounded `while` loop in `advanceTurn` is embedded fuelled
  (`findNextIndex`); the fuel `players.length` is justified below
  (`findNextIndex_all_removed`, `findNextIndex_finds`): the JS loop
  terminates iff a non-removed player exists, and then `players.length`
  steps suffice.  A `none` result of `advanceTurnFn` marks divergence of
  the JS loop.
* JS exceptions (out-of-bounds indexing) and loop divergence make the
  room-level step function return `none`.
-/

namespace Ludo

inductive PlayerColor
  | Red
  | Green
  | Blue
  | Yellow
deriving DecidableEq, Repr

inductive PieceState
  | Home
  | Active
  | Finished
deriving DecidableEq, Repr

inductive GameStatus
  | Setup
  | Playing
  | Finished
deriving DecidableEq, Repr

def PLAYER_COLORS_ORDER : List PlayerColor :=
  [PlayerColor.Red, PlayerColor.Green, PlayerColor.Yellow, PlayerColor.Blue]

def TOTAL_PATH_LENGTH : Int := 52

def HOME_STRETCH_LENGTH : Int := 6

def FINISH_POSITION_START : Int := 100

def SAFE_SPOTS : List Int := [1, 9, 14, 22, 27, 35, 40, 48]

def START_POSITIONS : PlayerColor → Int
  | PlayerColor.Green => 1
  | PlayerColor.Red => 14
  | PlayerColor.Yellow => 40
  | PlayerColor.Blue => 27

def PRE_HOME_POSITIONS : PlayerColor → Int
  | PlayerColor.Green => 51
  | PlayerColor.Red => 12
  | PlayerColor.Yellow => 38
  | PlayerColor.Blue => 25

/-- `PLAYER_COLORS_ORDER.indexOf color` from the source, as a function. -/
def colorIndex : PlayerColor → Nat
  | PlayerColor.Red => 0
  | PlayerColor.Green => 1
  | PlayerColor.Yellow => 2
  | PlayerColor.Blue => 3

structure Piece where
  id : Nat
  color : PlayerColor
  state : PieceState
  position : Int
deriving DecidableEq, Repr

/-- The `{position, state}` record returned by `getNewPosition`. -/
structure MoveRes where
  position : Int
  state : PieceState
deriving DecidableEq, Repr

/-- `getNewPosition(piece, diceValue)` from src/server.js (lines 342-373). -/
def getNewPosition (piece : Piece) (diceValue : Int) : MoveRes :=
  if piece.state = PieceState.Home ∧ diceValue = 6 then
    { position := START_POSITIONS piece.color, state := PieceState.Active }
  else if piece.state = PieceState.Active then
    if piece.position ≥ FINISH_POSITION_START then
      let homeStretchPos := piece.position - FINISH_POSITION_START
      let newHomeStretchPos := homeStretchPos + diceValue
      if newHomeStretchPos < HOME_STRETCH_LENGTH then
        { position := FINISH_POSITION_START + newHomeStretchPos,
          state := if newHomeStretchPos = HOME_STRETCH_LENGTH - 1 then
              PieceState.Finished else PieceState.Active }
      else
        { position := piece.position, state := piece.state }
    else
      let preHomePos := PRE_HOME_POSITIONS piece.color
      let distToPreHome :=
        (preHomePos - piece.position + TOTAL_PATH_LENGTH).tmod TOTAL_PATH_LENGTH
      if diceValue > distToPreHome then
        let homeStretchPos := diceValue - distToPreHome - 1
        if homeStretchPos < HOME_STRETCH_LENGTH then
          { position := FINISH_POSITION_START + homeStretchPos,
            state := if homeStretchPos = HOME_STRETCH_LENGTH - 1 then
                PieceState.Finished else PieceState.Active }
        else
          { position := piece.position, state := piece.state }
      else
        let newPosRaw := piece.position + diceValue
        { position := if newPosRaw > TOTAL_PATH_LENGTH then
              newPosRaw.tmod TOTAL_PATH_LENGTH else newPosRaw,
          state := PieceState.Active }
  else
    { position := piece.position, state := piece.state }

structure Player where
  id : Nat
  playerId : String
  name : String
  color : PlayerColor
  pieces : List Piece
  hasFinished : Bool
  inactiveTurns : Nat
  isRemoved : Bool
  isHost : Bool
deriving DecidableEq, Repr

/-- The count of the player's own active pieces standing on `pos`
(the `ownPiecesAtDestination` filter in `calculateMovablePieces`). -/
def ownActiveCount (player : Player) (pos : Int) : Nat :=
  (player.pieces.filter fun p =>
    p.state = PieceState.Active ∧ p.position = pos).length

/-- The per-piece loop body of `calculateMovablePieces`: `true` iff the
piece's id is pushed onto `movable`. -/
def pieceMovable (player : Player) (diceValue : Int) (piece : Piece) : Bool :=
  if piece.state = PieceState.Finished then false
  else
    let res := getNewPosition piece diceValue
    if res.position = piece.position ∧ res.state = piece.state then false
    else decide (ownActiveCount player res.position < 2)

/-- `calculateMovablePieces(player, diceValue, players)` from src/server.js
(lines 375-395); the `players` argument is unused in the source. -/
def calculateMovablePieces (player : Player) (diceValue : Int) : List Nat :=
  (player.pieces.filter (pieceMovable player diceValue)).map Piece.id

/-- `createNewPlayer(playerId, playerName, color, isHost)`. -/
def createNewPlayer (playerId playerName : String) (color : PlayerColor)
    (isHost : Bool) : Player :=
  { id := colorIndex color
    playerId := playerId
    name := playerName
    color := color
    pieces := (List.range 4).map fun i =>
      { id := colorIndex color * 4 + i
        color := color
        state := PieceState.Home
        position := -1 }
    hasFinished := false
    inactiveTurns := 0
    isRemoved := false
    isHost := isHost }

structure ChatEntry where
  id : Nat
  playerId : String
  name : String
  color : PlayerColor
  text : String
  timestamp : Nat
deriving DecidableEq, Repr

/-- The per-room session record.  `currentTurnPlayerId` is `none` exactly
when the JS field is `undefined` (the `createGame` handler never sets it).
`winner` stores a snapshot of the player object assigned by the win path. -/
structure GameState where
  gameId : String
  hostId : String
  players : List Player
  currentPlayerIndex : Nat
  currentTurnPlayerId : Option String
  diceValue : Option Int
  gameStatus : GameStatus
  winner : Option Player
  message : String
  movablePieces : List Nat
  isAnimating : Bool
  isRolling : Bool
  turnTimeLeft : Nat
  chatMessages : List ChatEntry
deriving DecidableEq, Repr

/-- The `while` loop of `advanceTurn`, fuelled.  The JS loop has no bound;
`findNextIndex_all_removed` below shows it diverges (returns `none` for
every fuel) when every player is removed, and `findNextIndex_finds` shows
fuel `players.length` suffices otherwise, so `advanceTurnFn` instantiates
the fuel with `players.length` and reads `none` as divergence. -/
def findNextIndex (players : List Player) : Nat → Nat → Option Nat
  | _, 0 => none
  | i, fuel + 1 =>
    match players[i]? with
    | none => none
    | some p =>
      if p.isRemoved then
        findNextIndex players ((i + 1) % players.length) fuel
      else some i

/-- `advanceTurn(gameState)` from src/server.js (lines 325-338); `none`
marks divergence of the JS `while` loop. -/
def advanceTurnFn (g : GameState) : Option GameState :=
  if g.players.length = 0 then some g
  else
    match findNextIndex g.players
        ((g.currentPlayerIndex + 1) % g.players.length) g.players.length with
    | none => none
    | some j =>
      match g.players[j]? with
      | none => none
      | some p =>
        some { g with
          currentPlayerIndex := j
          currentTurnPlayerId := some p.playerId
          diceValue := none
          isRolling := false
          movablePieces := []
          message := p.name ++ "\x27s turn."
          turnTimeLeft := 30 }

/-! ## Room-level event model

One room plus this room's connection bindings (`clients`) and pending
`setTimeout` callbacks.  Real time is explicit: every external event
carries its arrival time in ms, each pending timer its fire time
(enqueue time + 1000 for the roll resolution, + 1500 for the auto-pass).
The node event loop handles callbacks and messages of one room in
fire-time / arrival order, so a step is valid only when no pending timer
is due strictly before it; `applyEv` checks exactly that. -/

inductive TimerKind
  | rollResolve
  | autoPass
deriving DecidableEq, Repr

structure Timer where
  kind : TimerKind
  fireAt : Nat
deriving DecidableEq, Repr

/-- Error frames (`sendError`) produced by a step: connection id and
message text.  Broadcast frames carry no information beyond the state
snapshot, so they are not recorded. -/
abbrev Out := Nat × String

structure Room where
  game : GameState
  timers : List Timer
  bindings : List (Nat × String)
  now : Nat
deriving DecidableEq, Repr

/-- Client messages addressed to this room (the dispatcher drops frames
for other `gameId`s before touching this room's state). -/
inductive CMsg
  | joinGame (playerId playerName : String)
  | startGame (playerId : String)
  | rollDice (playerId : String)
  | movePiece (playerId : String) (pieceId : Nat)
  | chatMessage (playerId : String) (text : String)
deriving DecidableEq, Repr

/-- A timer callback firing; the roll resolution carries the
`Math.floor(Math.random()*6)+1` outcome drawn at fire time. -/
inductive TFire
  | rollResolve (d : Int)
  | autoPass
deriving DecidableEq, Repr

inductive Ev
  | msg (conn : Nat) (t : Nat) (m : CMsg)
  | close (conn : Nat) (t : Nat)
  | fire (t : Nat) (k : TFire)
deriving DecidableEq, Repr

/-- `clients.set(ws, {playerId, gameId})`. -/
def setBinding (conn : Nat) (pid : String) (bs : List (Nat × String)) :
    List (Nat × String) :=
  (conn, pid) :: bs.filter fun b => b.1 ≠ conn

/-- `clients.delete(ws)`. -/
def delBinding (conn : Nat) (bs : List (Nat × String)) :
    List (Nat × String) :=
  bs.filter fun b => b.1 ≠ conn

/-- The `joinGame` handler (src/server.js lines 426-439).  Note the order:
the full-room check precedes the already-seated rebind check. -/
def handleJoin (r : Room) (conn : Nat) (pid name : String) :
    Room × List Out :=
  if 4 ≤ r.game.players.length then (r, [(conn, "This game is full.")])
  else if r.game.players.any (fun p => p.playerId = pid) then
    ({ r with bindings := setBinding conn pid r.bindings }, [])
  else
    let color := PLAYER_COLORS_ORDER.getD r.game.players.length PlayerColor.Red
    ({ r with
        game := { r.game with
          players := r.game.players ++ [createNewPlayer pid name color false] }
        bindings := setBinding conn pid r.bindings }, [])

/-- The `startGame` handler (src/server.js lines 441-449): only the host
identity is checked, never `gameStatus`.  `players` is never empty in a
room created by `createGame`; an empty list would crash the JS handler
(`none`). -/
def handleStart (r : Room) (conn : Nat) (pid : String) :
    Option (Room × List Out) :=
  if r.game.hostId ≠ pid then
    some (r, [(conn, "Only the host can start.")])
  else
    match r.game.players with
    | [] => none
    | p0 :: _ =>
      some ({ r with game := { r.game with
          gameStatus := GameStatus.Playing
          currentPlayerIndex := 0
          currentTurnPlayerId := some p0.playerId
          message := p0.name ++ "\x27s turn." } }, [])

/-- The synchronous part of the `rollDice` handler (src/server.js lines
451-454): the guard checks the caller and `diceValue === null` (not
`isRolling`), sets `isRolling`, and schedules the roll resolution 1000 ms
out.  Failures are silent. -/
def handleRoll (r : Room) (pid : String) (t : Nat) : Room × List Out :=
  if r.game.currentTurnPlayerId ≠ some pid ∨ r.game.diceValue ≠ none then
    (r, [])
  else
    ({ r with
        game := { r.game with isRolling := true }
        timers := r.timers ++ [⟨TimerKind.rollResolve, t + 1000⟩] }, [])

/-- The 1000 ms roll-resolution callback (src/server.js lines 456-476):
assigns the dice, clears `isRolling`, computes `movablePieces` for the
player at `currentPlayerIndex` *at fire time*, and on an empty result
schedules the 1500 ms auto-pass.  An out-of-range `currentPlayerIndex`
would crash the JS callback (`none`). -/
def fireRollResolve (r : Room) (d : Int) (t : Nat) :
    Option (Room × List Out) :=
  match r.game.players[r.game.currentPlayerIndex]? with
  | none => none
  | some currentPlayer =>
    let movable := calculateMovablePieces currentPlayer d
    let g1 := { r.game with
      diceValue := some d
      isRolling := false
      movablePieces := movable }
    if movable = [] then
      some ({ r with
          game := { g1 with message := (currentPlayer.name ++ " rolled a " ++
            toString d ++ ", but has no moves.") }
          timers := r.timers ++ [⟨TimerKind.autoPass, t + 1500⟩] }, [])
    else
      some ({ r with
          game := { g1 with message := (currentPlayer.name ++ " rolled a " ++
            toString d ++ ". Move a piece.") } }, [])

/-- The 1500 ms auto-pass callback: `advanceTurn(game)`. -/
def fireAutoPass (r : Room) : Option (Room × List Out) :=
  (advanceTurnFn r.game).map fun g2 => ({ r with game := g2 }, [])

/-- In-place mutation of the piece found by
`player.pieces.find(p => p.id === pieceId)`: the first matching piece. -/
def updatePieceList (pieces : List Piece) (pieceId : Nat) (res : MoveRes) :
    List Piece :=
  match pieces with
  | [] => []
  | p :: rest =>
    if p.id = pieceId then
      { p with position := res.position, state := res.state } :: rest
    else p :: updatePieceList rest pieceId res

/-- The capture sweep of the `movePiece` handler: when the destination
state is `Active` and the destination square is not safe, every piece of
every *other* player standing on the destination position is sent Home.
There is no check that the destination lies on the shared loop
(`< FINISH_POSITION_START`). -/
def capturePlayers (pid : String) (res : MoveRes) (players : List Player) :
    List Player :=
  if res.state = PieceState.Active ∧ res.position ∉ SAFE_SPOTS then
    players.map fun p =>
      if p.playerId ≠ pid then
        { p with pieces := p.pieces.map fun q =>
            if q.position = res.position then
              { q with state := PieceState.Home, position := -1 }
            else q }
      else p
  else players

/-- The `capturedAPiece` flag: the sweep above found at least one
opposing piece on the destination position. -/
def captureHappened (pid : String) (res : MoveRes) (players : List Player) :
    Bool :=
  if res.state = PieceState.Active ∧ res.position ∉ SAFE_SPOTS then
    players.any fun p =>
      decide (p.playerId ≠ pid) && p.pieces.any fun q =>
        q.position = res.position
  else false

/-- The state mutation of the `movePiece` handler once the mover and the
piece are found: apply the advancement in place, run the capture sweep,
recompute `hasFinished`, then either finish the game, grant a bonus turn
(dice 6 or capture), or advance the turn. -/
def movePieceCore (g : GameState) (pid : String) (pieceId : Nat)
    (player : Player) (piece : Piece) : Option GameState :=
  let res := getNewPosition piece (g.diceValue.getD 0)
  let movedPlayers := g.players.set g.currentPlayerIndex
    { player with pieces := updatePieceList player.pieces pieceId res }
  let players2 := capturePlayers pid res movedPlayers
  let capturedAPiece := captureHappened pid res movedPlayers
  match players2[g.currentPlayerIndex]? with
  | none => none
  | some pMoved =>
    let hf := pMoved.pieces.all fun q => q.state = PieceState.Finished
    let pDone := { pMoved with hasFinished := hf }
    let players3 := players2.set g.currentPlayerIndex pDone
    if hf then
      some { g with
        players := players3
        gameStatus := GameStatus.Finished
        winner := some pDone
        message := pDone.name ++ " has won the game!" }
    else if g.diceValue = some 6 ∨ capturedAPiece then
      some { g with
        players := players3
        diceValue := none
        movablePieces := []
        message := pDone.name ++ " gets another turn!" }
    else
      advanceTurnFn { g with players := players3 }

/-- The `movePiece` handler (src/server.js lines 480-524).  `diceValue`
is non-null whenever `movablePieces` is non-empty (an invariant proved
below), so `Option.getD 0` matches the JS `null` arithmetic on the
unreachable branch. -/
def handleMove (r : Room) (pid : String) (pieceId : Nat) :
    Option (Room × List Out) :=
  let g := r.game
  if g.currentTurnPlayerId ≠ some pid ∨ pieceId ∉ g.movablePieces then
    some (r, [])
  else
    match g.players[g.currentPlayerIndex]? with
    | none => none
    | some player =>
      match player.pieces.find? (fun p => p.id = pieceId) with
      | none => some (r, [])
      | some piece =>
        (movePieceCore g pid pieceId player piece).map
          fun g2 => ({ r with game := g2 }, [])

/-- The `chatMessage` handler (src/server.js lines 526-534): append one
entry when the sender is seated, do nothing otherwise; no error frames.
`Date.now()` (used for both the entry id and the timestamp) is the
handling time `t`. -/
def handleChat (r : Room) (pid text : String) (t : Nat) : Room × List Out :=
  match r.game.players.find? (fun p => p.playerId = pid) with
  | none => (r, [])
  | some player =>
    ({ r with game := { r.game with
        chatMessages := r.game.chatMessages ++
          [{ id := t, playerId := pid, name := player.name,
             color := player.color, text := text, timestamp := t }] } }, [])

/-- `isRemoved = true` on the player found by
`players.find(p => p.playerId === playerId)` (the first match). -/
def markRemoved : List Player → String → List Player
  | [], _ => []
  | p :: rest, pid =>
    if p.playerId = pid then { p with isRemoved := true } :: rest
    else p :: markRemoved rest pid

/-- The `ws.on('close')` handler (src/server.js lines 540-558): look up the
binding, mark the player removed, advance the turn if it was theirs, and
drop the binding. -/
def handleClose (r : Room) (conn : Nat) : Option (Room × List Out) :=
  match r.bindings.lookup conn with
  | none => some (r, [])
  | some pid =>
    let bs := delBinding conn r.bindings
    match r.game.players.find? (fun p => p.playerId = pid) with
    | none => some ({ r with bindings := bs }, [])
    | some _ =>
      let g1 := { r.game with players := markRemoved r.game.players pid }
      if g1.currentTurnPlayerId = some pid then
        (advanceTurnFn g1).map fun g2 =>
          ({ r with game := g2, bindings := bs }, [])
      else
        some ({ r with game := g1, bindings := bs }, [])

def handleMsg (r : Room) (conn : Nat) (t : Nat) :
    CMsg → Option (Room × List Out)
  | CMsg.joinGame pid name => some (handleJoin r conn pid name)
  | CMsg.startGame pid => handleStart r conn pid
  | CMsg.rollDice pid => some (handleRoll r pid t)
  | CMsg.movePiece pid pieceId => handleMove r pid pieceId
  | CMsg.chatMessage pid text => some (handleChat r pid text t)

/-- Remove the (first) pending timer of the given kind due at `t`. -/
def removeTimer (k : TimerKind) (t : Nat) : List Timer → Option (List Timer)
  | [] => none
  | tm :: rest =>
    if tm.kind = k ∧ tm.fireAt = t then some rest
    else (removeTimer k t rest).map (tm :: ·)

/-- Time admissibility: an event at time `t` may be handled only if the
clock has not passed `t` and no pending callback is due strictly before
`t` (the event loop handles everything in time order). -/
def timeOk (r : Room) (t : Nat) : Bool :=
  decide (r.now ≤ t) && r.timers.all fun tm => t ≤ tm.fireAt

/-- One serialized step of the room: handle a client frame, a connection
close, or a due timer callback.  `none` marks an inadmissible schedule, a
JS crash, or divergence of `advanceTurn`. -/
def applyEv (r : Room) : Ev → Option (Room × List Out)
  | Ev.msg conn t m =>
    if timeOk r t then handleMsg { r with now := t } conn t m else none
  | Ev.close conn t =>
    if timeOk r t then handleClose { r with now := t } conn else none
  | Ev.fire t k =>
    if timeOk r t then
      let kind := match k with
        | TFire.rollResolve _ => TimerKind.rollResolve
        | TFire.autoPass => TimerKind.autoPass
      match removeTimer kind t r.timers with
      | none => none
      | some timers1 =>
        let r1 := { r with timers := timers1, now := t }
        match k with
        | TFire.rollResolve d =>
          if 1 ≤ d ∧ d ≤ 6 then fireRollResolve r1 d t else none
        | TFire.autoPass => fireAutoPass r1
    else none

/-- Run a list of events, accumulating the error frames sent. -/
def run (r : Room) : List Ev → Option (Room × List Out)
  | [] => some (r, [])
  | e :: es =>
    match applyEv r e with
    | none => none
    | some (r1, out1) =>
      match run r1 es with
      | none => none
      | some (r2, out2) => some (r2, out1 ++ out2)

/-- The room produced by the `createGame` handler (src/server.js lines
416-423) for a fresh connection: the caller is seated as the Red host and
bound; `currentTurnPlayerId` is never assigned there (JS `undefined`). -/
def initRoom (conn : Nat) (pid name : String) : Room :=
  { game :=
      { gameId := "ROOM01"
        hostId := pid
        players := [createNewPlayer pid name PlayerColor.Red true]
        currentPlayerIndex := 0
        currentTurnPlayerId := none
        diceValue := none
        gameStatus := GameStatus.Setup
        winner := none
        message := "Waiting for players..."
        movablePieces := []
        isAnimating := false
        isRolling := false
        turnTimeLeft := 30
        chatMessages := [] }
    timers := []
    bindings := [(conn, pid)]
    now := 0 }

/-! ## Concrete states and traces used by the claim theorems -/

/-- A mid-game state: Red (the host, to move, dice already 2) has piece 0
on its home-stretch entry square 100; Green has piece 4 on square 102 of
*Green's own* private home stretch.  Both facts arise in ordinary play
(each side advanced one piece into its stretch), and `movablePieces = [0]`
and `diceValue = some 2` are exactly what the roll-resolution callback
computes for Red here. -/
def c1Red : Player :=
  { id := 0, playerId := "A", name := "Ann", color := PlayerColor.Red
    pieces := [⟨0, PlayerColor.Red, PieceState.Active, 100⟩,
               ⟨1, PlayerColor.Red, PieceState.Home, -1⟩,
               ⟨2, PlayerColor.Red, PieceState.Home, -1⟩,
               ⟨3, PlayerColor.Red, PieceState.Home, -1⟩]
    hasFinished := false, inactiveTurns := 0, isRemoved := false
    isHost := true }

def c1Green : Player :=
  { id := 1, playerId := "B", name := "Bea", color := PlayerColor.Green
    pieces := [⟨4, PlayerColor.Green, PieceState.Active, 102⟩,
               ⟨5, PlayerColor.Green, PieceState.Home, -1⟩,
               ⟨6, PlayerColor.Green, PieceState.Home, -1⟩,
               ⟨7, PlayerColor.Green, PieceState.Home, -1⟩]
    hasFinished := false, inactiveTurns := 0, isRemoved := false
    isHost := false }

def c1Room : Room :=
  { game :=
      { gameId := "ROOM01", hostId := "A", players := [c1Red, c1Green]
        currentPlayerIndex := 0, currentTurnPlayerId := some "A"
        diceValue := some 2, gameStatus := GameStatus.Playing
        winner := none, message := "Ann rolled a 2. Move a piece."
        movablePieces := [0], isAnimating := false, isRolling := false
        turnTimeLeft := 30, chatMessages := [] }
    timers := [], bindings := [(1, "A"), (2, "B")], now := 5000 }

/-- A Red player with two active pieces already standing on home-stretch
square 100 (both entered at index 0 on earlier turns), a third active
piece on loop square 11 — whose dice-2 destination is square 100 — and
one piece still Home. -/
def c2Red : Player :=
  { id := 0, playerId := "A", name := "Ann", color := PlayerColor.Red
    pieces := [⟨0, PlayerColor.Red, PieceState.Active, 100⟩,
               ⟨1, PlayerColor.Red, PieceState.Active, 100⟩,
               ⟨2, PlayerColor.Red, PieceState.Active, 11⟩,
               ⟨3, PlayerColor.Red, PieceState.Home, -1⟩]
    hasFinished := false, inactiveTurns := 0, isRemoved := false
    isHost := true }

/-- C3 trace: A creates the room, B joins, A starts, A rolls (enqueuing
the 1000 ms roll resolution), then A's connection closes, advancing the
turn to B while the timer is still pending. -/
def c3Trace : List Ev :=
  [Ev.msg 2 10 (CMsg.joinGame "B" "Bea"),
   Ev.msg 1 20 (CMsg.startGame "A"),
   Ev.msg 1 30 (CMsg.rollDice "A"),
   Ev.close 1 40]

/-- C4 failing input: a one-player room whose only player (the host) is
removed. -/
def c4Players : List Player :=
  [{ createNewPlayer "A" "Ann" PlayerColor.Red true with isRemoved := true }]

def c4State : GameState :=
  { (initRoom 1 "A" "Ann").game with
      players := c4Players
      gameStatus := GameStatus.Playing
      currentTurnPlayerId := some "A" }

/-- C5 trace: after the game is Playing with the turn on seat 1, the host
re-sends `startGame` (from a rebound connection) on the running game. -/
def c5Trace : List Ev :=
  [Ev.msg 2 10 (CMsg.joinGame "B" "Bea"),
   Ev.msg 1 20 (CMsg.startGame "A"),
   Ev.close 1 30,
   Ev.msg 3 40 (CMsg.joinGame "A" "Ann"),
   Ev.msg 3 50 (CMsg.startGame "A")]

/-- One bonus cycle for the host: roll, resolution with dice `d` 1000 ms
later, and a `movePiece` on `pieceId` 100 ms after that. -/
def rollMove (t : Nat) (d : Int) (pieceId : Nat) : List Ev :=
  [Ev.msg 1 t (CMsg.rollDice "A"),
   Ev.fire (t + 1000) (TFire.rollResolve d),
   Ev.msg 1 (t + 1100) (CMsg.movePiece "A" pieceId)]

/-- Ten consecutive dice-6 bonus cycles moving one Red piece from Home to
home-stretch square 103 (14, 20, 26, 32, 38, 44, 50, 4, 10, 103). -/
def bonusRuns (t0 : Nat) (pieceId : Nat) : List Ev :=
  ((List.range 10).map fun k => rollMove (t0 + 2000 * k) 6 pieceId).flatten

/-- A full run of one Red piece: ten dice-6 cycles to square 103, then a
dice-2 finishing move to 105. -/
def pieceRun (t0 : Nat) (pieceId : Nat) : List Ev :=
  bonusRuns t0 pieceId ++ rollMove (t0 + 20000) 2 pieceId

/-- B's turn with all pieces Home and a non-6 roll: no moves, so the
1500 ms auto-pass returns the turn to A. -/
def interludeB (t : Nat) : List Ev :=
  [Ev.msg 2 t (CMsg.rollDice "B"),
   Ev.fire (t + 1000) (TFire.rollResolve 2),
   Ev.fire (t + 2500) TFire.autoPass]

/-- C6 trace: A finishes pieces 0-2, brings piece 3 to square 103, then —
with B's no-move auto-pass still pending after B disconnects — rolls 2 and
wins at time 100900 while the stale auto-pass is due at 101100. -/
def winTrace : List Ev :=
  [Ev.msg 2 10 (CMsg.joinGame "B" "Bea"),
   Ev.msg 1 20 (CMsg.startGame "A")] ++
  pieceRun 1000 0 ++ interludeB 23000 ++
  pieceRun 26000 1 ++ interludeB 48000 ++
  pieceRun 51000 2 ++ interludeB 73000 ++
  bonusRuns 76000 3 ++
  [Ev.msg 1 96000 (CMsg.rollDice "A"),
   Ev.fire 97000 (TFire.rollResolve 6),
   Ev.fire 98500 TFire.autoPass,
   Ev.msg 2 98600 (CMsg.rollDice "B"),
   Ev.fire 99600 (TFire.rollResolve 3),
   Ev.close 2 99700,
   Ev.msg 1 99800 (CMsg.rollDice "A"),
   Ev.fire 100800 (TFire.rollResolve 2),
   Ev.msg 1 100900 (CMsg.movePiece "A" 3)]

/-- C8 trace: the host's connection closes during Setup (where
`currentTurnPlayerId` is still undefined, so no turn advancement runs),
the host rejoins on a new connection, and then starts the game: seat 0 is
a removed player while seat 1 is not. -/
def c8Trace : List Ev :=
  [Ev.msg 2 10 (CMsg.joinGame "B" "Bea"),
   Ev.close 1 20,
   Ev.msg 3 30 (CMsg.joinGame "A" "Ann"),
   Ev.msg 3 40 (CMsg.startGame "A")]

/-- C9 trace: B, C, D join (room full), then the already-seated A rejoins
from a fresh connection 5. -/
def c9Trace : List Ev :=
  [Ev.msg 2 10 (CMsg.joinGame "B" "Bea"),
   Ev.msg 3 20 (CMsg.joinGame "C" "Cal"),
   Ev.msg 4 30 (CMsg.joinGame "D" "Dee"),
   Ev.msg 5 40 (CMsg.joinGame "A" "Ann")]

/-- A two-player room (host plus one joiner), used as the rejoin witness. -/
def c9Room : Room :=
  (handleJoin (initRoom 1 "A" "Ann") 2 "B" "Bea").1

/-! ## Session invariants (used for C7 and C8) -/

/-- The turn pointer is in range and, whenever `currentTurnPlayerId` has
been assigned, it names the player at `currentPlayerIndex`. -/
def TurnPointerOk (g : GameState) : Prop :=
  g.currentPlayerIndex < g.players.length ∧
  ∀ s, g.currentTurnPlayerId = some s →
    ∃ p, g.players[g.currentPlayerIndex]? = some p ∧ p.playerId = s

/-- The dice-phase flags: a non-null dice excludes `isRolling`, and a
non-empty `movablePieces` implies a non-null dice. -/
def DiceFlagsOk (g : GameState) : Prop :=
  (g.diceValue ≠ none → g.isRolling = false) ∧
  (g.movablePieces ≠ [] → g.diceValue ≠ none)

def SessionInv (g : GameState) : Prop := TurnPointerOk g ∧ DiceFlagsOk g

/-! ## Adequacy of the fuelled `advanceTurn` loop -/

/-- When every player is removed, the loop finds nothing for any fuel:
the JS `while` loop never exits. -/
theorem findNextIndex_all_removed (players : List Player)
    (h : ∀ p ∈ players, p.isRemoved = true) :
    ∀ fuel i, findNextIndex players i fuel = none := by
  intro fuel
  induction fuel with
  | zero => intro i; rfl
  | succ n ih =>
    intro i
    unfold findNextIndex
    cases hg : players[i]? with
    | none => simp
    | some p =>
      simp only [hg]
      rw [if_pos (h p (List.getElem?_mem hg))]
      exact ih _

/-- A `none` answer with fuel `f` means the first `f` cyclically visited
seats all hold removed players. -/
theorem findNextIndex_none_visited (players : List Player) :
    ∀ fuel i, i < players.length →
      findNextIndex players i fuel = none →
      ∀ k < fuel, ∃ p, players[(i + k) % players.length]? = some p ∧
        p.isRemoved = true := by
  intro fuel
  induction fuel with
  | zero => intro i _ _ k hk; omega
  | succ n ih =>
    intro i hi hnone k hk
    have hlen : 0 < players.length := Nat.lt_of_le_of_lt (Nat.zero_le i) hi
    unfold findNextIndex at hnone
    cases hg : players[i]? with
    | none =>
      have := List.getElem?_eq_none (l := players) (n := i)
      rw [List.getElem?_eq_getElem hi] at hg
      exact absurd hg (by simp)
    | some p =>
      simp only [hg] at hnone
      by_cases hrem : p.isRemoved
      · rw [if_pos hrem] at hnone
        cases k with
        | zero =>
          refine ⟨p, ?_, hrem⟩
          rwa [Nat.add_zero, Nat.mod_eq_of_lt hi]
        | succ m =>
          have hm : m < n := by omega
          have := ih ((i + 1) % players.length)
            (Nat.mod_lt _ hlen) hnone m hm
          obtain ⟨q, hq, hqrem⟩ := this
          refine ⟨q, ?_, hqrem⟩
          rwa [Nat.mod_add_mod, show i + 1 + m = i + (m + 1) by omega] at hq
      · rw [if_neg hrem] at hnone
        exact absurd hnone (by simp)

/-- Fuel `players.length` is enough: if some player is not removed, the
fuelled loop succeeds, so `advanceTurnFn` returns `none` exactly when the
JS loop diverges. -/
theorem findNextIndex_finds (players : List Player)
    (hex : ∃ p ∈ players, p.isRemoved = false) (i : Nat)
    (hi : i < players.length) :
    findNextIndex players i players.length ≠ none := by
  intro hnone
  obtain ⟨q, hqmem, hqrem⟩ := hex
  obtain ⟨j, hj, hjq⟩ := List.mem_iff_getElem.mp hqmem
  have hlen : 0 < players.length := Nat.lt_of_le_of_lt (Nat.zero_le i) hi
  set n := players.length with hn
  have hk : (j + n - i) % n < n := Nat.mod_lt _ hlen
  have hvis := findNextIndex_none_visited players n i hi hnone
    ((j + n - i) % n) hk
  obtain ⟨p, hp, hprem⟩ := hvis
  have harith : (i + (j + n - i) % n) % n = j := by
    rw [Nat.add_mod_mod, Nat.add_sub_cancel' (by omega : i ≤ j + n),
      Nat.add_mod_right, Nat.mod_eq_of_lt hj]
  rw [harith, List.getElem?_eq_getElem hj, hjq] at hp
  cases hp
  rw [hqrem] at hprem
  cases hprem

/-- The loop only ever returns a seat holding a non-removed player. -/
theorem findNextIndex_some_spec (players : List Player) :
    ∀ fuel i j, findNextIndex players i fuel = some j →
      ∃ p, players[j]? = some p ∧ p.isRemoved = false := by
  intro fuel
  induction fuel with
  | zero => intro i j h; cases h
  | succ n ih =>
    intro i j h
    unfold findNextIndex at h
    cases hg : players[i]? with
    | none => simp [hg] at h
    | some p =>
      simp only [hg] at h
      by_cases hrem : p.isRemoved
      · rw [if_pos hrem] at h
        exact ih _ _ h
      · rw [if_neg hrem] at h
        cases h
        exact ⟨p, hg, by simpa using hrem⟩

/-! ## Preservation of the session invariants -/

theorem markRemoved_length (l : List Player) (pid : String) :
    (markRemoved l pid).length = l.length := by
  induction l with
  | nil => rfl
  | cons p rest ih =>
    unfold markRemoved
    split <;> simp [ih]

theorem markRemoved_getElem?_playerId (l : List Player) (pid : String)
    (i : Nat) :
    ((markRemoved l pid)[i]?).map Player.playerId =
      (l[i]?).map Player.playerId := by
  induction l generalizing i with
  | nil => rfl
  | cons p rest ih =>
    unfold markRemoved
    split
    · cases i <;> simp
    · cases i <;> simp [ih]

theorem capturePlayers_length (pid : String) (res : MoveRes)
    (l : List Player) : (capturePlayers pid res l).length = l.length := by
  unfold capturePlayers
  split <;> simp

theorem capturePlayers_getElem?_playerId (pid : String) (res : MoveRes)
    (l : List Player) (i : Nat) :
    ((capturePlayers pid res l)[i]?).map Player.playerId =
      (l[i]?).map Player.playerId := by
  unfold capturePlayers
  split
  · rw [List.getElem?_map]
    cases l[i]? with
    | none => rfl
    | some p =>
      simp only [Option.map_some']
      split <;> rfl
  · rfl

theorem advanceTurnFn_inv (g g2 : GameState)
    (h : advanceTurnFn g = some g2) (hg : SessionInv g) : SessionInv g2 := by
  unfold advanceTurnFn at h
  by_cases hlen : g.players.length = 0
  · rw [if_pos hlen] at h
    cases h
    exact hg
  · rw [if_neg hlen] at h
    cases hf : findNextIndex g.players
        ((g.currentPlayerIndex + 1) % g.players.length) g.players.length with
    | none => rw [hf] at h; cases h
    | some j =>
      simp only [hf] at h
      cases hj : g.players[j]? with
      | none =>
        simp only [hj] at h
        exact Option.noConfusion h
      | some p =>
        simp only [hj, Option.some.injEq] at h
        cases h
        refine ⟨⟨?_, ?_⟩, ?_, ?_⟩
        · exact (List.getElem?_eq_some.mp hj).1
        · intro s hs
          cases hs
          exact ⟨p, hj, rfl⟩
        · intro _; rfl
        · intro hmv; exact absurd rfl hmv

theorem handleJoin_inv (r : Room) (conn : Nat) (pid name : String)
    (hg : SessionInv r.game) :
    SessionInv (handleJoin r conn pid name).1.game := by
  unfold handleJoin
  split
  · exact hg
  · split
    · exact hg
    · obtain ⟨⟨hlt, hptr⟩, hdice⟩ := hg
      refine ⟨⟨?_, ?_⟩, hdice⟩
      · simp only [List.length_append]
        omega
      · intro s hs
        obtain ⟨p, hp, hps⟩ := hptr s hs
        exact ⟨p, by rw [List.getElem?_append_left
          ((List.getElem?_eq_some.mp hp).1)]; exact hp, hps⟩

theorem handleStart_inv (r : Room) (conn : Nat) (pid : String)
    (r2 : Room) (out : List Out)
    (h : handleStart r conn pid = some (r2, out)) (hg : SessionInv r.game) :
    SessionInv r2.game := by
  unfold handleStart at h
  split at h
  · cases h; exact hg
  · cases hps : r.game.players with
    | nil => rw [hps] at h; cases h
    | cons p0 rest =>
      rw [hps] at h
      cases h
      refine ⟨⟨?_, ?_⟩, hg.2⟩
      · simp [hps]
      · intro s hs
        cases hs
        exact ⟨p0, by simp [hps], rfl⟩

theorem handleRoll_inv (r : Room) (pid : String) (t : Nat)
    (hg : SessionInv r.game) : SessionInv (handleRoll r pid t).1.game := by
  unfold handleRoll
  split
  · exact hg
  · rename_i hcond
    push_neg at hcond
    refine ⟨hg.1, ?_, ?_⟩
    · intro hd
      exact absurd hcond.2 hd
    · intro hmv
      exact absurd hcond.2 (hg.2.2 hmv)

theorem fireRollResolve_inv (r : Room) (d : Int) (t : Nat)
    (r2 : Room) (out : List Out)
    (h : fireRollResolve r d t = some (r2, out)) (hg : SessionInv r.game) :
    SessionInv r2.game := by
  unfold fireRollResolve at h
  cases hp : r.game.players[r.game.currentPlayerIndex]? with
  | none =>
    simp only [hp] at h
    exact Option.noConfusion h
  | some currentPlayer =>
    simp only [hp] at h
    by_cases hmv : calculateMovablePieces currentPlayer d = []
    · rw [if_pos hmv] at h
      cases h
      exact ⟨hg.1, fun _ => rfl, fun _ => by simp⟩
    · rw [if_neg hmv] at h
      cases h
      exact ⟨hg.1, fun _ => rfl, fun _ => by simp⟩

theorem fireAutoPass_inv (r : Room) (r2 : Room) (out : List Out)
    (h : fireAutoPass r = some (r2, out)) (hg : SessionInv r.game) :
    SessionInv r2.game := by
  unfold fireAutoPass at h
  cases ha : advanceTurnFn r.game with
  | none => rw [ha] at h; cases h
  | some g2 =>
    rw [ha] at h
    cases h
    exact advanceTurnFn_inv _ _ ha hg

theorem handleChat_inv (r : Room) (pid text : String) (t : Nat)
    (hg : SessionInv r.game) : SessionInv (handleChat r pid text t).1.game := by
  unfold handleChat
  cases r.game.players.find? (fun p => p.playerId = pid) with
  | none => exact hg
  | some p => exact hg

theorem handleClose_inv (r : Room) (conn : Nat) (r2 : Room) (out : List Out)
    (h : handleClose r conn = some (r2, out)) (hg : SessionInv r.game) :
    SessionInv r2.game := by
  unfold handleClose at h
  cases hb : r.bindings.lookup conn with
  | none => rw [hb] at h; cases h; exact hg
  | some pid =>
    simp only [hb] at h
    cases hf : r.game.players.find? (fun p => p.playerId = pid) with
    | none => simp only [hf] at h; cases h; exact hg
    | some q =>
      simp only [hf] at h
      have hinv1 : SessionInv { r.game with
          players := markRemoved r.game.players pid } := by
        obtain ⟨⟨hlt, hptr⟩, hdice⟩ := hg
        refine ⟨⟨?_, ?_⟩, hdice⟩
        · simpa [markRemoved_length] using hlt
        · intro s hs
          obtain ⟨p, hp, hps⟩ := hptr s hs
          have := markRemoved_getElem?_playerId r.game.players pid
            r.game.currentPlayerIndex
          rw [hp] at this
          simp only [Option.map_some'] at this
          obtain ⟨p2, hp2, hp2id⟩ := Option.map_eq_some'.mp this
          exact ⟨p2, hp2, by rw [hp2id, hps]⟩
      split at h
      · cases ha : advanceTurnFn { r.game with
            players := markRemoved r.game.players pid } with
        | none => rw [ha] at h; cases h
        | some g2 =>
          rw [ha] at h
          cases h
          exact advanceTurnFn_inv _ _ ha hinv1
      · cases h
        exact hinv1

theorem movePieceCore_inv (g : GameState) (pid : String) (pieceId : Nat)
    (player : Player) (piece : Piece) (g2 : GameState)
    (hp : g.players[g.currentPlayerIndex]? = some player)
    (h : movePieceCore g pid pieceId player piece = some g2)
    (hg : SessionInv g) : SessionInv g2 := by
  have hidx : g.currentPlayerIndex < g.players.length := hg.1.1
  simp only [movePieceCore] at h
  cases hm : (capturePlayers pid (getNewPosition piece (g.diceValue.getD 0))
      (g.players.set g.currentPlayerIndex
        { player with pieces := (updatePieceList player.pieces pieceId
            (getNewPosition piece (g.diceValue.getD 0))) }))[g.currentPlayerIndex]? with
  | none =>
    simp only [hm] at h
    exact Option.noConfusion h
  | some pMoved =>
    simp only [hm] at h
    have hlen2 : (capturePlayers pid (getNewPosition piece (g.diceValue.getD 0))
        (g.players.set g.currentPlayerIndex
          { player with pieces := (updatePieceList player.pieces pieceId
              (getNewPosition piece (g.diceValue.getD 0))) })).length =
        g.players.length := by
      rw [capturePlayers_length, List.length_set]
    have hidx2 : g.currentPlayerIndex <
        (capturePlayers pid (getNewPosition piece (g.diceValue.getD 0))
          (g.players.set g.currentPlayerIndex
            { player with pieces := (updatePieceList player.pieces pieceId
                (getNewPosition piece (g.diceValue.getD 0))) })).length := by
      rw [hlen2]; exact hidx
    have hpid : pMoved.playerId = player.playerId := by
      have hmap := capturePlayers_getElem?_playerId pid
        (getNewPosition piece (g.diceValue.getD 0))
        (g.players.set g.currentPlayerIndex
          { player with pieces := (updatePieceList player.pieces pieceId
              (getNewPosition piece (g.diceValue.getD 0))) })
        g.currentPlayerIndex
      rw [hm, List.getElem?_set_eq_of_lt _ hidx] at hmap
      simpa using hmap
    have hptr3 : ∀ pD : Player, pD.playerId = pMoved.playerId →
        TurnPointerOk { g with players :=
          ((capturePlayers pid (getNewPosition piece (g.diceValue.getD 0))
            (g.players.set g.currentPlayerIndex
              { player with pieces := (updatePieceList player.pieces pieceId
                  (getNewPosition piece (g.diceValue.getD 0))) })).set
            g.currentPlayerIndex pD) } := by
      intro pD hpD
      refine ⟨?_, ?_⟩
      · simpa [List.length_set, hlen2] using hidx
      · intro s hs
        obtain ⟨p0, hp0, hid0⟩ := hg.1.2 s hs
        rw [hp] at hp0
        cases hp0
        refine ⟨pD, ?_, ?_⟩
        · exact List.getElem?_set_eq_of_lt _ hidx2
        · rw [hpD, hpid, hid0]
    by_cases hhf : (pMoved.pieces.all fun q => q.state = PieceState.Finished) = true
    · rw [if_pos hhf] at h
      cases h
      exact ⟨hptr3 _ rfl, hg.2⟩
    · rw [if_neg hhf] at h
      by_cases hbonus : g.diceValue = some 6 ∨
          captureHappened pid (getNewPosition piece (g.diceValue.getD 0))
            (g.players.set g.currentPlayerIndex
              { player with pieces := (updatePieceList player.pieces pieceId
                  (getNewPosition piece (g.diceValue.getD 0))) }) = true
      · rw [if_pos hbonus] at h
        cases h
        refine ⟨hptr3 _ rfl, ?_, ?_⟩
        · intro hd
          exact absurd rfl hd
        · intro hmv
          exact absurd rfl hmv
      · rw [if_neg hbonus] at h
        exact advanceTurnFn_inv _ _ h ⟨hptr3 _ rfl, hg.2⟩

theorem handleMove_inv (r : Room) (pid : String) (pieceId : Nat)
    (r2 : Room) (out : List Out)
    (h : handleMove r pid pieceId = some (r2, out)) (hg : SessionInv r.game) :
    SessionInv r2.game := by
  simp only [handleMove] at h
  split at h
  · cases h; exact hg
  · cases hp : r.game.players[r.game.currentPlayerIndex]? with
    | none =>
      simp only [hp] at h
      exact Option.noConfusion h
    | some player =>
      simp only [hp] at h
      cases hfind : player.pieces.find? (fun p => p.id = pieceId) with
      | none => simp only [hfind] at h; cases h; exact hg
      | some piece =>
        simp only [hfind] at h
        cases hc : movePieceCore r.game pid pieceId player piece with
        | none =>
          rw [hc] at h
          exact Option.noConfusion h
        | some g2 =>
          rw [hc] at h
          simp only [Option.map_some', Option.some.injEq] at h
          cases h
          exact movePieceCore_inv _ _ _ _ _ _ hp hc hg

theorem applyEv_inv (r : Room) (e : Ev) (r2 : Room) (out : List Out)
    (h : applyEv r e = some (r2, out)) (hg : SessionInv r.game) :
    SessionInv r2.game := by
  cases e with
  | msg conn t m =>
    simp only [applyEv] at h
    split at h
    · cases m with
      | joinGame pid name =>
        simp only [handleMsg, Option.some.injEq] at h
        exact congrArg (fun x => x.1.game) h ▸ handleJoin_inv _ conn pid name hg
      | startGame pid =>
        exact handleStart_inv _ conn pid _ _ h hg
      | rollDice pid =>
        simp only [handleMsg, Option.some.injEq] at h
        exact congrArg (fun x => x.1.game) h ▸ handleRoll_inv _ pid t hg
      | movePiece pid pieceId =>
        exact handleMove_inv _ pid pieceId _ _ h hg
      | chatMessage pid text =>
        simp only [handleMsg, Option.some.injEq] at h
        exact congrArg (fun x => x.1.game) h ▸ handleChat_inv _ pid text t hg
    · exact Option.noConfusion h
  | close conn t =>
    simp only [applyEv] at h
    split at h
    · exact handleClose_inv _ conn _ _ h hg
    · exact Option.noConfusion h
  | fire t k =>
    simp only [applyEv] at h
    split at h
    · cases k with
      | rollResolve d =>
        cases hrt : removeTimer TimerKind.rollResolve t r.timers with
        | none =>
          simp only [hrt] at h
          exact Option.noConfusion h
        | some timers1 =>
          simp only [hrt] at h
          split at h
          · exact fireRollResolve_inv _ d t _ _ h hg
          · exact Option.noConfusion h
      | autoPass =>
        cases hrt : removeTimer TimerKind.autoPass t r.timers with
        | none =>
          simp only [hrt] at h
          exact Option.noConfusion h
        | some timers1 =>
          simp only [hrt] at h
          exact fireAutoPass_inv _ _ _ h hg
    · exact Option.noConfusion h

theorem run_inv (tr : List Ev) : ∀ (r r2 : Room) (out : List Out),
    run r tr = some (r2, out) → SessionInv r.game → SessionInv r2.game := by
  induction tr with
  | nil =>
    intro r r2 out h hg
    unfold run at h
    cases h
    exact hg
  | cons e es ih =>
    intro r r2 out h hg
    unfold run at h
    cases ha : applyEv r e with
    | none =>
      rw [ha] at h
      exact Option.noConfusion h
    | some p1 =>
      obtain ⟨r1, out1⟩ := p1
      simp only [ha] at h
      cases hr : run r1 es with
      | none =>
        rw [hr] at h
        exact Option.noConfusion h
      | some p2 =>
        obtain ⟨r3, out2⟩ := p2
        simp only [hr, Option.some.injEq, Prod.mk.injEq] at h
        obtain ⟨h1, -⟩ := h
        cases h1
        exact ih r1 _ out2 hr (applyEv_inv r e r1 out1 ha hg)

theorem initRoom_inv (conn : Nat) (pid name : String) :
    SessionInv (initRoom conn pid name).game := by
  refine ⟨⟨?_, ?_⟩, ?_, ?_⟩
  · simp [initRoom]
  · intro s hs
    exact Option.noConfusion hs
  · intro _
    rfl
  · intro hmv
    exact absurd rfl hmv

/-! ## Claim theorems -/

/-- C1: the spec restricts capture to shared-loop destinations
(`position < 100`), so a move ending inside the mover's private home
stretch must capture nothing.  The code's capture guard
(`newState === Active && !SAFE_SPOTS.includes(newPos)`) never compares
`newPos` with `FINISH_POSITION_START`: when Red moves piece 0 from its
home-stretch square 100 to 102 (dice 2), Green's piece 4 — standing on
square 102 of *Green's own* private home stretch, a physically different
square — is sent Home (`position = -1`, `state = Home`). -/
theorem c1_capture_inside_home_stretch :
    getNewPosition ⟨0, PlayerColor.Red, PieceState.Active, 100⟩ 2 =
      ⟨102, PieceState.Active⟩ ∧
    FINISH_POSITION_START ≤ 102 ∧ 102 ∉ SAFE_SPOTS ∧
    ((handleMove c1Room "A" 0).map fun x =>
        x.1.game.players.map fun p =>
          p.pieces.map fun q => (q.id, q.position, q.state)) =
      some [[(0, 102, PieceState.Active), (1, -1, PieceState.Home),
             (2, -1, PieceState.Home), (3, -1, PieceState.Home)],
            [(4, -1, PieceState.Home), (5, -1, PieceState.Home),
             (6, -1, PieceState.Home), (7, -1, PieceState.Home)]] := by
  decide

/-- C2 counterexample: the claim says a destination in the player's own
home stretch is never disallowed by the blockade rule, but the code's
blockade check does not restrict itself to shared-loop squares.  Red's
piece 2 on loop square 11 has the otherwise-valid dice-2 destination 100
(its home-stretch entry, `≥ FINISH_POSITION_START`), yet with two own
active pieces already on 100 its id is excluded from `movablePieces`. -/
theorem c2_blockade_home_stretch_counterexample :
    getNewPosition ⟨2, PlayerColor.Red, PieceState.Active, 11⟩ 2 =
      ⟨100, PieceState.Active⟩ ∧
    FINISH_POSITION_START ≤ 100 ∧
    ownActiveCount c2Red 100 = 2 ∧
    calculateMovablePieces c2Red 2 = [0, 1] := by
  decide

/-- C2 (amended): among the player's pieces that are not `Finished` and
have a valid advancement, the id is excluded from `movablePieces` exactly
when two or more of the player's own active pieces occupy the destination
position — with no restriction of the destination to the shared loop
(home-stretch destinations are blockaded the same way). -/
theorem c2_blockade_characterization (player : Player) (d : Int)
    (piece : Piece) (hmem : piece ∈ player.pieces)
    (hnodup : (player.pieces.map Piece.id).Nodup)
    (hnf : piece.state ≠ PieceState.Finished)
    (hvalid : getNewPosition piece d ≠ ⟨piece.position, piece.state⟩) :
    piece.id ∈ calculateMovablePieces player d ↔
      ownActiveCount player (getNewPosition piece d).position < 2 := by
  have hmv : pieceMovable player d piece =
      decide (ownActiveCount player (getNewPosition piece d).position < 2) := by
    unfold pieceMovable
    rw [if_neg hnf, if_neg]
    intro ⟨h1, h2⟩
    exact hvalid (by cases hres : getNewPosition piece d
                     simp only [hres] at h1 h2 ⊢
                     simp [h1, h2])
  constructor
  · intro hin
    unfold calculateMovablePieces at hin
    obtain ⟨q, hq, hqid⟩ := List.mem_map.mp hin
    obtain ⟨hqmem, hqmv⟩ := List.mem_filter.mp hq
    have hqp : q = piece :=
      List.inj_on_of_nodup_map hnodup hqmem hmem hqid
    rw [hqp, hmv] at hqmv
    exact of_decide_eq_true hqmv
  · intro hlt
    unfold calculateMovablePieces
    exact List.mem_map.mpr ⟨piece,
      List.mem_filter.mpr ⟨hmem, by rw [hmv]; exact decide_eq_true hlt⟩, rfl⟩

/-- C2 witness: the characterization applied to Red's piece 0 of the
counterexample state (destination 102, no blockade there, id 0 listed). -/
theorem c2_blockade_characterization_witness :
    0 ∈ calculateMovablePieces c2Red 2 ↔
      ownActiveCount c2Red (getNewPosition
        ⟨0, PlayerColor.Red, PieceState.Active, 100⟩ 2).position < 2 :=
  c2_blockade_characterization c2Red 2
    ⟨0, PlayerColor.Red, PieceState.Active, 100⟩
    (by decide) (by decide) (by decide) (by decide)

/-- C3: the claim demands that a timer firing after its turn has ended
causes no state change.  In the reachable trace `c3Trace` the 1000 ms
roll resolution is enqueued during A's turn (fires at 1030); A's
connection then closes at t=40 and the turn passes to B; when the stale
timer fires it still mutates the session — `diceValue` goes from `none`
to `some 4`, `movablePieces` is recomputed for B, and a fresh 1500 ms
auto-pass is scheduled. -/
theorem c3_stale_timer_mutates_after_turn_change :
    ((run (initRoom 1 "A" "Ann") (c3Trace.take 3)).map fun x =>
        (x.1.game.currentTurnPlayerId, x.1.timers)) =
      some (some "A", [⟨TimerKind.rollResolve, 1030⟩]) ∧
    ((run (initRoom 1 "A" "Ann") c3Trace).map fun x =>
        (x.1.game.currentTurnPlayerId, x.1.game.diceValue, x.1.timers)) =
      some (some "B", none, [⟨TimerKind.rollResolve, 1030⟩]) ∧
    ((run (initRoom 1 "A" "Ann")
        (c3Trace ++ [Ev.fire 1030 (TFire.rollResolve 4)])).map fun x =>
        (x.1.game.currentTurnPlayerId, x.1.game.diceValue,
         x.1.game.isRolling, x.1.timers)) =
      some (some "B", some 4, false, [⟨TimerKind.autoPass, 2530⟩]) := by
  decide

/-- C4: the claim (with the spec) says turn advancement on an all-removed
player list is a no-op.  In the code the `while` loop of `advanceTurn`
never exits in that case — for every fuel the search returns `none` — and
the state is reachable: a single-player game whose host starts it and then
disconnects makes the close handler call `advanceTurn` on `[removed A]`,
hanging the server (`run = none` marks the divergence). -/
theorem c4_advanceTurn_diverges_when_all_removed :
    (∀ fuel i, findNextIndex c4Players i fuel = none) ∧
    advanceTurnFn c4State = none ∧
    run (initRoom 1 "A" "Ann")
      [Ev.msg 1 10 (CMsg.startGame "A"), Ev.close 1 20] = none :=
  ⟨findNextIndex_all_removed c4Players (by decide), by decide, by decide⟩

/-- C5: the claim says `startGame` requires `gameStatus = Setup` and an
already-Playing session is never put back to Playing with
`currentPlayerIndex` reset to 0.  The handler checks only the host
identity: in `c5Trace` the session is Playing with the turn on seat 1,
and the host's second `startGame` resets `currentPlayerIndex` to 0 (onto
a removed player) without any error. -/
theorem c5_startGame_restarts_playing_game :
    ((run (initRoom 1 "A" "Ann") (c5Trace.take 4)).map fun x =>
        (x.1.game.gameStatus, x.1.game.currentPlayerIndex,
         x.1.game.currentTurnPlayerId)) =
      some (GameStatus.Playing, 1, some "B") ∧
    ((run (initRoom 1 "A" "Ann") c5Trace).map fun x =>
        (x.1.game.gameStatus, x.1.game.currentPlayerIndex,
         x.1.game.currentTurnPlayerId, x.2)) =
      some (GameStatus.Playing, 0, some "A", []) := by
  decide

set_option maxRecDepth 40000 in
/-- C6: the win itself is set correctly (`hasFinished`, `gameStatus`,
`winner`), but the claim's "no further turn transition" part fails: at the
end of `winTrace` the game is Finished with `diceValue = some 2` while
B's stale 1500 ms auto-pass (enqueued before B disconnected) is still
pending; firing it after the win runs `advanceTurn`, clearing `diceValue`
to `none` and resetting the turn message — a timer-driven turn transition
after the game finished. -/
theorem c6_timer_transition_after_win :
    ((run (initRoom 1 "A" "Ann") winTrace).map fun x =>
        (x.1.game.gameStatus, x.1.game.winner.map Player.playerId,
         x.1.game.diceValue)) =
      some (GameStatus.Finished, some "A", some 2) ∧
    ((run (initRoom 1 "A" "Ann") winTrace).map fun x =>
        (x.1.game.players.map fun p => (p.playerId, p.hasFinished),
         x.1.timers)) =
      some ([("A", true), ("B", false)], [⟨TimerKind.autoPass, 101100⟩]) ∧
    ((run (initRoom 1 "A" "Ann")
        (winTrace ++ [Ev.fire 101100 TFire.autoPass])).map fun x =>
        (x.1.game.gameStatus, x.1.game.diceValue, x.1.game.turnTimeLeft)) =
      some (GameStatus.Finished, none, 30) := by
  refine ⟨by decide, by decide, by decide⟩

/-- C8 counterexample: (a) the state created by `createGame` has
`currentTurnPlayerId` undefined (`none`), not equal to
`players[0].playerId = "A"`, while `gameStatus` is Setup; (b) in the
reachable trace `c8Trace` the session ends Playing with
`currentPlayerIndex = 0` naming a removed player although seat 1 is not
removed. -/
theorem c8_turn_pointer_counterexample :
    ((initRoom 1 "A" "Ann").game.currentTurnPlayerId = none ∧
     (initRoom 1 "A" "Ann").game.gameStatus = GameStatus.Setup ∧
     (initRoom 1 "A" "Ann").game.players.map Player.playerId = ["A"]) ∧
    ((run (initRoom 1 "A" "Ann") c8Trace).map fun x =>
        (x.1.game.gameStatus, x.1.game.currentPlayerIndex,
         x.1.game.currentTurnPlayerId,
         x.1.game.players.map fun p => (p.playerId, p.isRemoved))) =
      some (GameStatus.Playing, 0, some "A",
        [("A", true), ("B", false)]) := by
  decide

/-- C9 counterexample: the claim includes rooms that already hold 4
players, but the handler's full-room check precedes the rebind check:
the already-seated "A" rejoining on connection 5 receives the error frame
"This game is full.", connection 5 is not bound, and no rebind happens. -/
theorem c9_rejoin_full_room_counterexample :
    ((run (initRoom 1 "A" "Ann") c9Trace).map fun x =>
        (x.2, x.1.bindings.lookup 5, x.1.game.players.length)) =
      some ([(5, "This game is full.")], none, 4) := by
  decide

/-- C9 (amended): for a room with fewer than four seated players, a
`joinGame` carrying an already-seated `playerId` leaves the game state
(players included) unchanged, rebinds the sending connection, and sends
no error frame. -/
theorem c9_rejoin_rebinds (r : Room) (conn : Nat) (pid name : String)
    (hlen : r.game.players.length < 4)
    (hseated : r.game.players.any (fun p => p.playerId = pid) = true) :
    handleJoin r conn pid name =
      ({ r with bindings := setBinding conn pid r.bindings }, []) := by
  unfold handleJoin
  rw [if_neg (by omega), if_pos hseated]

/-- C9 witness: the host "A" rejoining the two-player room `c9Room` on
fresh connection 7. -/
theorem c9_rejoin_rebinds_witness :
    handleJoin c9Room 7 "A" "Ann" =
      ({ c9Room with bindings := setBinding 7 "A" c9Room.bindings }, []) :=
  c9_rejoin_rebinds c9Room 7 "A" "Ann" (by decide) (by decide)

/-- C10: a `chatMessage` from a seated sender appends exactly one entry
to `chatMessages` (earlier entries and every other session field, the
timers and the bindings unchanged) and sends no error frame; an unseated
sender changes nothing and triggers no error frame either.  (A frame for
a nonexistent room is dropped by the dispatcher before touching any
room.) -/
theorem c10_chat_frame (r : Room) (pid text : String) (t : Nat) :
    (handleChat r pid text t).2 = [] ∧
    ((∃ p, r.game.players.find? (fun q => q.playerId = pid) = some p ∧
        (handleChat r pid text t).1 = { r with game := { r.game with
          chatMessages := r.game.chatMessages ++
            [{ id := t, playerId := pid, name := p.name, color := p.color,
               text := text, timestamp := t }] } }) ∨
      (r.game.players.find? (fun q => q.playerId = pid) = none ∧
        (handleChat r pid text t).1 = r)) := by
  unfold handleChat
  cases h : r.game.players.find? (fun q => q.playerId = pid) with
  | none => exact ⟨rfl, Or.inr ⟨rfl, rfl⟩⟩
  | some p => exact ⟨rfl, Or.inl ⟨p, rfl, rfl⟩⟩

/-- C7: in every session state reachable from a freshly created room —
under any admissible interleaving of client frames, connection closes and
pending timer callbacks — a non-null `diceValue` implies
`isRolling = false`, and a non-empty `movablePieces` implies a non-null
`diceValue`.  Every mutation that sets `diceValue` also clears
`isRolling`, `rollDice` requires `diceValue === null`, and
`movablePieces` only becomes non-empty together with a dice assignment. -/
theorem c7_dice_rolling_exclusive (conn : Nat) (pid name : String)
    (tr : List Ev) (R : Room) (outs : List Out)
    (h : run (initRoom conn pid name) tr = some (R, outs)) :
    (R.game.diceValue ≠ none → R.game.isRolling = false) ∧
    (R.game.movablePieces ≠ [] → R.game.diceValue ≠ none) :=
  (run_inv tr _ _ _ h (initRoom_inv conn pid name)).2

/-- C7 witness: the invariant at the freshly created room itself. -/
theorem c7_dice_rolling_exclusive_witness :
    ((initRoom 1 "A" "Ann").game.diceValue ≠ none →
      (initRoom 1 "A" "Ann").game.isRolling = false) ∧
    ((initRoom 1 "A" "Ann").game.movablePieces ≠ [] →
      (initRoom 1 "A" "Ann").game.diceValue ≠ none) :=
  c7_dice_rolling_exclusive 1 "A" "Ann" [] (initRoom 1 "A" "Ann") [] rfl

/-- C8 (amended): in every reachable session state `currentPlayerIndex`
is in range, and *whenever `currentTurnPlayerId` has been assigned* it
equals `players[currentPlayerIndex].playerId`.  The field stays
unassigned (`none`, JS `undefined`) in rooms created by `createGame`
until the first `startGame` or turn advancement, and the player at
`currentPlayerIndex` may be removed even while non-removed players
remain, so those two parts of the original claim are dropped (see the
counterexample). -/
theorem c8_turn_pointer_amended (conn : Nat) (pid name : String)
    (tr : List Ev) (R : Room) (outs : List Out)
    (h : run (initRoom conn pid name) tr = some (R, outs)) :
    R.game.currentPlayerIndex < R.game.players.length ∧
    ∀ s, R.game.currentTurnPlayerId = some s →
      ∃ p, R.game.players[R.game.currentPlayerIndex]? = some p ∧
        p.playerId = s :=
  (run_inv tr _ _ _ h (initRoom_inv conn pid name)).1

/-- C8 witness: the amended invariant at the freshly created room. -/
theorem c8_turn_pointer_amended_witness :
    (initRoom 1 "A" "Ann").game.currentPlayerIndex <
      (initRoom 1 "A" "Ann").game.players.length ∧
    ∀ s, (initRoom 1 "A" "Ann").game.currentTurnPlayerId = some s →
      ∃ p, (initRoom 1 "A" "Ann").game.players[
          (initRoom 1 "A" "Ann").game.currentPlayerIndex]? = some p ∧
        p.playerId = s :=
  c8_turn_pointer_amended 1 "A" "Ann" [] (initRoom 1 "A" "Ann") [] rfl

end Ludo
